import Mathlib

/-!
Shallow embedding of the session/streaming server in `src/main.py`
(gaussian-viewer): the frame-production retry loop (`FrameProducer.recv`),
the packet-to-frame helper (`parse_frame`), the session registry
(the module-level `sessions` dict and `create_session`), the HTTP
handlers (`create_offer`, `add_ice_candidate`), the connection-state
handler, the ICE-candidate line parsing, and the `camera_update`
control-message handling.

External collaborators (the renderer, the codec context, the peer
connection) are modelled as oracles/opaque handles; the control flow
around them is translated directly from the Python source.
-/

set_option autoImplicit false

namespace GV

/-! ### parse_frame (src/main.py lines 46-57)

The codec context (`container`) is opaque; we model the behaviour of its
`parse` and `decode` methods during one `parse_frame` call as an oracle.
`parse` turns the input bytes into a list of packets (or raises), and
`decode` turns each packet into a list of frames (or raises).  Packets and
frames are abstract handles (`Nat`).  A raised exception at either stage is
modelled as `Except.error`; the Python `try`/`except` around the whole body
catches it, logs, and falls through to `return None`. -/

/-- Behaviour of the codec context during one `parse_frame` call:
`parse` produces a packet list from the data, `decode` produces a frame
list from each packet; either can raise. -/
structure CodecOracle where
  parse : List Nat → Except Unit (List Nat)
  decode : Nat → Except Unit (List Nat)

/-- The nested `for packet in packets: for frame in container.decode(packet):
return frame` loop of `parse_frame`: the first frame of the first packet whose
decode yields any frame is returned; a decode exception aborts to `none`
(caught by the surrounding `except`); if every packet decodes to no frames the
loop falls through to `none`. -/
def decodeLoop (C : CodecOracle) : List Nat → Option Nat
  | [] => none
  | p :: ps =>
    match C.decode p with
    | .error _ => none
    | .ok [] => decodeLoop C ps
    | .ok (f :: _) => some f

/-- `parse_frame(container, data)` from src/main.py: parse the data into
packets, return the first decoded frame, and map every exception to `None`. -/
def parse_frame (C : CodecOracle) (data : List Nat) : Option Nat :=
  match C.parse data with
  | .error _ => none
  | .ok packets => decodeLoop C packets

/-! ### FrameProducer.recv (src/main.py lines 107-135)

`recv` runs a `while True` loop: call `self.session.renderer.render()`;
if it returned a non-empty buffer, feed it to `parse_frame`; a parsed frame
breaks out of the loop; a `None` frame raises, and the `except` branch
increments `failed_attempts`, breaking once it reaches
`max_failed_attempts = 10`.  Crucially, a render result of `None` (or an
empty buffer) takes neither branch: nothing is raised and the counter is
not touched, so the loop just spins.

The renderer and codec behaviour on the `i`-th loop iteration is an oracle
value `RenderStep`; the loop itself is translated as a fuel-indexed step
function so that non-termination is observable as `running` for every fuel. -/

/-- Joint outcome of `renderer.render()` and (when reached) `parse_frame`
on one iteration of the `recv` retry loop. -/
inductive RenderStep where
  /-- `render()` raises an exception. -/
  | raiseExc
  /-- `render()` returns `None` or an empty buffer (`len(data) == 0`). -/
  | noData
  /-- `render()` returns data and `parse_frame` returns frame `f`. -/
  | frame (f : Nat)
  /-- `render()` returns data but `parse_frame` returns `None`
  (the code then raises `Exception("Error parsing frame")`). -/
  | badFrame
  deriving DecidableEq

/-- Per-iteration behaviour of the renderer/codec pipeline. -/
def RendererOracle := Nat → RenderStep

/-- Result of the `while True` loop in `recv`. -/
inductive LoopResult where
  /-- The loop exited via `break` after `parse_frame` returned a frame. -/
  | gotFrame (f : Nat)
  /-- The loop exited via `break` in the `except` branch after the failure
  counter reached `max_failed_attempts`. -/
  | exhausted
  /-- The loop has not exited within the given fuel. -/
  | running
  deriving DecidableEq

/-- The `while True` loop of `recv`, one constructor per iteration:
`i` is the iteration index (selecting the oracle's behaviour) and `failed`
is the current value of `failed_attempts`.  `maxFailed` is the constant
`max_failed_attempts = 10`. -/
def recvLoop (O : RendererOracle) (maxFailed : Nat) :
    Nat → Nat → Nat → LoopResult
  | 0, _, _ => .running
  | fuel + 1, i, failed =>
    match O i with
    | .frame f => .gotFrame f
    | .noData => recvLoop O maxFailed fuel (i + 1) failed
    | .raiseExc =>
      if failed + 1 ≥ maxFailed then .exhausted
      else recvLoop O maxFailed fuel (i + 1) (failed + 1)
    | .badFrame =>
      if failed + 1 ≥ maxFailed then .exhausted
      else recvLoop O maxFailed fuel (i + 1) (failed + 1)

/-- Result of one `recv` call.  When the loop breaks out with a frame, the
code stamps `frame.pts = pts` and returns it.  When it breaks out exhausted,
`frame` was never assigned a frame in this call (it is either unbound or
`None` from the last `parse_frame`), so `frame.pts = pts` raises
(`UnboundLocalError` resp. `AttributeError`); `crashed` models that raised
exception escaping `recv`. -/
inductive RecvResult where
  /-- A frame stamped with the pull's `pts`. -/
  | frame (f : Nat) (pts : Nat)
  /-- `frame.pts = pts` raised because no frame was produced this pull. -/
  | crashed
  /-- The retry loop has not finished within the given fuel. -/
  | running
  deriving DecidableEq

/-- `FrameProducer.recv` from src/main.py: run the retry loop with
`max_failed_attempts = 10`, then stamp and return the frame; on exhaustion
the trailing `frame.pts = pts` raises. -/
def recv (O : RendererOracle) (pts : Nat) (fuel : Nat) : RecvResult :=
  match recvLoop O 10 fuel 0 0 with
  | .gotFrame f => .frame f pts
  | .exhausted => .crashed
  | .running => .running

/-! ### The session registry (src/main.py lines 22, 60-65)

`sessions` is a module-level Python dict from session-id strings to
`Session` objects.  We model it as an association list with Python-dict
semantics: assignment (`sessions[k] = v`) replaces the entry for `k` if
present and appends otherwise; `del sessions[k]` removes the entry for `k`
and raises `KeyError` when `k` is absent; subscription (`sessions[k]`)
raises `KeyError` when `k` is absent.

A `Session` (src/main.py lines 80-88) holds its id and the renderer and
peer-connection objects.  Object identity of the Python `Renderer` and
`RTCPeerConnection` instances is modelled by `Nat` handles, allocated
freshly (from `ServerState.nextHandle`) exactly where the Python code
evaluates a constructor (`RTCPeerConnection()` on line 166, `Renderer(...)`
on line 62). -/

/-- A `Session` object: id plus renderer and peer-connection handles. -/
structure Session where
  session_id : String
  renderer : Nat
  pc : Nat
  deriving DecidableEq

/-- `sessions[k] = v` on a Python dict: replace the entry for `k` if one
exists, otherwise append a new entry. -/
def dictInsert (k : String) (v : Session) :
    List (String × Session) → List (String × Session)
  | [] => [(k, v)]
  | (k', v') :: rest =>
    if k = k' then (k, v) :: rest else (k', v') :: dictInsert k v rest

/-- `sessions[k]` lookup on a Python dict (`none` when `k` raises
`KeyError`). -/
def dictGet (k : String) : List (String × Session) → Option Session
  | [] => none
  | (k', v) :: rest => if k = k' then some v else dictGet k rest

/-- `del sessions[k]`: drop the entry for `k` (the caller is responsible
for the `KeyError` when `k` is absent; on a true dict keys are unique, so
dropping every entry with key `k` is the same as dropping the one). -/
def dictErase (k : String) (l : List (String × Session)) :
    List (String × Session) :=
  l.filter fun p => p.1 ≠ k

/-- Module-level mutable server state: the `sessions` dict plus a fresh-name
supply for Python object identities. -/
structure ServerState where
  sessions : List (String × Session)
  nextHandle : Nat
  deriving DecidableEq

/-- `PyError` stands for an exception escaping a handler uncaught. -/
inductive PyError where
  /-- A `KeyError` raised by a dict subscription or `del`. -/
  | keyError
  deriving DecidableEq

/-- `create_session(session_id, pc)` from src/main.py lines 60-65: build a
fresh `Renderer`, build the `Session`, and store it with
`sessions[session_id] = session` (replacing any previous entry — there is no
existence check).  The fresh renderer handle is drawn from the state. -/
def create_session (st : ServerState) (session_id : String) (pc : Nat) :
    ServerState × Session :=
  let renderer := st.nextHandle
  let session : Session := ⟨session_id, renderer, pc⟩
  (⟨dictInsert session_id session st.sessions, st.nextHandle + 1⟩, session)

/-- `create_offer` (POST /offer) from src/main.py lines 162-198, restricted
to its effect on the registry and the created objects: construct a fresh
`RTCPeerConnection`, call `create_session`, and attach a `FrameProducer`
for the new session.  SDP negotiation is opaque and touches neither the
registry nor the handles.  There is no duplicate-session check anywhere in
the handler. -/
def create_offer (st : ServerState) (session_id : String) :
    ServerState × Session :=
  let pc := st.nextHandle
  create_session ⟨st.sessions, st.nextHandle + 1⟩ session_id pc

/-- The `on_connectionstatechange` callback from src/main.py lines 172-177:
when the connection state is `"failed"`, `await pc.close()` then
`del sessions[session_id]`.  The returned `Bool` records whether
`pc.close()` was called; `del` on an absent key raises `KeyError`. -/
def on_connectionstatechange (st : ServerState) (session_id : String)
    (connectionState : String) : Except PyError (ServerState × Bool) :=
  if connectionState = "failed" then
    match dictGet session_id st.sessions with
    | none => .error .keyError
    | some _ => .ok (⟨dictErase session_id st.sessions, st.nextHandle⟩, true)
  else
    .ok (st, false)

/-! ### ICE candidate parsing (src/main.py lines 138-159)

`add_ice_candidate` matches the candidate line against
`r"candidate:(\d+) (\d+) (\w+) (\d+) (\S+) (\d+) typ (\w+)"` with
`re.match`, i.e. the pattern is anchored at the start of the string but NOT
at its end: any string extending a matching prefix also matches, with the
extra characters ignored.

Each quantified group (`\d+`, `\w+`, `\S+`) is greedy, and each is followed
in the pattern by a character its class cannot match (a space, or
end-of-pattern for the final `\w+`), so greedy matching never backtracks:
every group captures exactly the maximal run of its class.  The parser
below is therefore a faithful maximal-munch translation of the regex.
Character classes are read over the ASCII range the grammar uses:
`\d` = `0`-`9`, `\w` = letters, digits and `_`, `\S` = non-whitespace. -/

/-- `\d` of the pattern. -/
def isDigitC (c : Char) : Bool := c.isDigit

/-- `\w` of the pattern. -/
def isWordC (c : Char) : Bool := c.isAlphanum || c = '_'

/-- `\S` of the pattern. -/
def isNonSpaceC (c : Char) : Bool := !c.isWhitespace

/-- Match a literal piece of the pattern against a prefix of the input,
returning the rest of the input. -/
def matchLit : List Char → List Char → Option (List Char)
  | [], s => some s
  | _ :: _, [] => none
  | c :: cs, d :: ds => if d = c then matchLit cs ds else none

/-- Match a greedy `+`-quantified character class: at least one character,
then the maximal run. -/
def munch1 (p : Char → Bool) : List Char → Option (List Char × List Char)
  | [] => none
  | c :: rest =>
    if p c then some (c :: rest.takeWhile p, rest.dropWhile p) else none

/-- `int(...)` on a string of decimal digits. -/
def decNat (s : List Char) : Nat :=
  s.foldl (fun n c => n * 10 + (c.toNat - '0'.toNat)) 0

/-- The fields handed to `RTCIceCandidate` in src/main.py lines 146-156:
`foundation`, `protocol`, `ip` and `type` are kept as strings, while
`component`, `priority` and `port` go through `int(...)`. -/
structure RTCIceCandidateFields where
  foundation : List Char
  component : Nat
  protocol : List Char
  priority : Nat
  ip : List Char
  port : Nat
  typ : List Char
  deriving DecidableEq

/-- `re.match(r"candidate:(\d+) (\d+) (\w+) (\d+) (\S+) (\d+) typ (\w+)", line)`
together with the group extraction and `int` conversions of
src/main.py lines 142-156.  `none` is the no-match case (the code logs and
drops the candidate). -/
def parseCandidate (line : List Char) : Option RTCIceCandidateFields :=
  (matchLit "candidate:".data line).bind fun s1 =>
  (munch1 isDigitC s1).bind fun (foundation, s2) =>
  (matchLit [' '] s2).bind fun s3 =>
  (munch1 isDigitC s3).bind fun (component, s4) =>
  (matchLit [' '] s4).bind fun s5 =>
  (munch1 isWordC s5).bind fun (protocol, s6) =>
  (matchLit [' '] s6).bind fun s7 =>
  (munch1 isDigitC s7).bind fun (priority, s8) =>
  (matchLit [' '] s8).bind fun s9 =>
  (munch1 isNonSpaceC s9).bind fun (ip, s10) =>
  (matchLit [' '] s10).bind fun s11 =>
  (munch1 isDigitC s11).bind fun (port, s12) =>
  (matchLit " typ ".data s12).bind fun s13 =>
  (munch1 isWordC s13).bind fun (typ, _) =>
  some ⟨foundation, decNat component, protocol, decNat priority,
        ip, decNat port, typ⟩

/-- Modelled from the spec: the candidate-line grammar of §4.1,
`candidate:<foundation> <component> <protocol> <priority> <ip> <port> typ
<type>`, read as a WHOLE-LINE match (nothing may follow the type token),
with foundation/component/priority/port decimal digit strings, protocol
and type alphanumeric tokens, and ip any non-whitespace token.  This is
the spec's wording, kept separate from `parseCandidate` (the code's
behaviour) so the two can be compared. -/
def specCandidateGrammar (line : List Char) : Option RTCIceCandidateFields :=
  (matchLit "candidate:".data line).bind fun s1 =>
  (munch1 isDigitC s1).bind fun (foundation, s2) =>
  (matchLit [' '] s2).bind fun s3 =>
  (munch1 isDigitC s3).bind fun (component, s4) =>
  (matchLit [' '] s4).bind fun s5 =>
  (munch1 (fun c => c.isAlphanum) s5).bind fun (protocol, s6) =>
  (matchLit [' '] s6).bind fun s7 =>
  (munch1 isDigitC s7).bind fun (priority, s8) =>
  (matchLit [' '] s8).bind fun s9 =>
  (munch1 isNonSpaceC s9).bind fun (ip, s10) =>
  (matchLit [' '] s10).bind fun s11 =>
  (munch1 isDigitC s11).bind fun (port, s12) =>
  (matchLit " typ ".data s12).bind fun s13 =>
  (munch1 (fun c => c.isAlphanum) s13).bind fun (typ, s14) =>
  if s14 = [] then
    some ⟨foundation, decNat component, protocol, decNat priority,
          ip, decNat port, typ⟩
  else none

/-- Outcome of the `add_ice_candidate` handler body: either the parsed
fields were forwarded to `pc.addIceCandidate` (`forwarded`), or the line
failed to parse and was only logged (`droppedBadCandidate`). -/
inductive IceOutcome where
  /-- `await pc.addIceCandidate(ice_candidate)` was reached with these
  fields, on the pc of this session. -/
  | forwarded (pc : Nat) (fields : RTCIceCandidateFields)
  /-- The regex did not match; the handler logged and returned normally. -/
  | droppedBadCandidate
  deriving DecidableEq

/-- `add_ice_candidate` (POST /ice-candidate) from src/main.py lines
138-159: `pc = sessions[session_id].pc` raises `KeyError` for an unknown
id (there is no lookup guard); otherwise the candidate line is matched and
either forwarded or dropped.  The registry is never mutated. -/
def add_ice_candidate (st : ServerState) (session_id : String)
    (candidate : List Char) : Except PyError IceOutcome :=
  match dictGet session_id st.sessions with
  | none => .error .keyError
  | some s =>
    match parseCandidate candidate with
    | some fields => .ok (.forwarded s.pc fields)
    | none => .ok .droppedBadCandidate

/-! ### camera_update rotation handling (src/main.py lines 186-190)

The `on_message` handler converts the three Euler angles of a
`camera_update` payload with
`Rotation.from_euler("xyz", rotation, degrees=True).as_matrix()` and calls
`renderer.update(position, rotation_matrix)`.

`scipy.spatial.transform.Rotation.from_euler` with the lower-case sequence
`"xyz"` (per its documentation) composes EXTRINSIC rotations about the
fixed axes x, then y, then z, so the resulting matrix is
`Rz(θz) * Ry(θy) * Rx(θx)`; `degrees=True` converts each angle from
degrees to radians first.  Angles are modelled as exact reals. -/

noncomputable section

/-- Rotation by `θ` radians about the X axis. -/
def Rx (θ : ℝ) : Matrix (Fin 3) (Fin 3) ℝ :=
  !![1, 0, 0; 0, Real.cos θ, -Real.sin θ; 0, Real.sin θ, Real.cos θ]

/-- Rotation by `θ` radians about the Y axis. -/
def Ry (θ : ℝ) : Matrix (Fin 3) (Fin 3) ℝ :=
  !![Real.cos θ, 0, Real.sin θ; 0, 1, 0; -Real.sin θ, 0, Real.cos θ]

/-- Rotation by `θ` radians about the Z axis. -/
def Rz (θ : ℝ) : Matrix (Fin 3) (Fin 3) ℝ :=
  !![Real.cos θ, -Real.sin θ, 0; Real.sin θ, Real.cos θ, 0; 0, 0, 1]

/-- `degrees=True`: degrees to radians. -/
def degToRad (d : ℝ) : ℝ := d * Real.pi / 180

/-- `Rotation.from_euler("xyz", [ax, ay, az], degrees=True).as_matrix()`:
extrinsic rotations about fixed axes x, y, z in that order. -/
def fromEulerXYZDeg (ax ay az : ℝ) : Matrix (Fin 3) (Fin 3) ℝ :=
  Rz (degToRad az) * Ry (degToRad ay) * Rx (degToRad ax)

/-- The pose written by a `camera_update` message: the payload's position,
and the rotation matrix computed from its Euler angles (src/main.py
lines 187-190). -/
def on_message_camera_update (position : Fin 3 → ℝ) (ax ay az : ℝ) :
    (Fin 3 → ℝ) × Matrix (Fin 3) (Fin 3) ℝ :=
  (position, fromEulerXYZDeg ax ay az)

end

/-! ### Interleaving of camera_update with an in-flight pull

Python asyncio runs all tasks of src/main.py on one event loop thread, and
a task can only be preempted at an `await`.  The `on_message` callback
(lines 181-190) is a plain synchronous `def`: once it starts, it runs to
completion — in particular `renderer.update(position, rotation)` completes
— before any other task runs.  Likewise the `data = self.session.renderer.render()`
call inside `recv` (line 116) is synchronous and runs without preemption.

We model this by giving each task a list of atomic SEGMENTS (the code
between two suspension points); a segment is a list of micro-operations on
the shared pose (so that even a field-by-field `update` inside the renderer
is representable).  A schedule is any interleaving of the tasks' segment
lists that preserves each task's order; context switches happen only at
segment boundaries, exactly as in the event loop. -/

/-- The renderer pose shared between the control handler and the pull. -/
structure Pose where
  pos : Nat
  rot : Nat
  deriving DecidableEq

/-- A micro-operation on the shared pose. -/
inductive MicroOp where
  /-- Write the position component. -/
  | writePos (p : Nat)
  /-- Write the rotation component. -/
  | writeRot (r : Nat)
  /-- The render call's read of the whole pose. -/
  | readPose
  deriving DecidableEq

/-- A segment: micro-operations executed without any suspension point
between them. -/
def Seg := List MicroOp

/-- All interleavings of two tasks' segment lists that preserve each
task's own order — the schedules the event loop can produce. -/
def merges : List Seg → List Seg → List (List Seg)
  | [], ys => [ys]
  | x :: xs, [] => [x :: xs]
  | x :: xs, y :: ys =>
    (merges xs (y :: ys)).map (x :: ·) ++
    (merges (x :: xs) ys).map (y :: ·)

/-- Run one micro-operation; the second component records the pose
observed by the last `readPose`, if any. -/
def execOp : Pose × Option Pose → MicroOp → Pose × Option Pose
  | (st, obs), .writePos p => (⟨p, st.rot⟩, obs)
  | (st, obs), .writeRot r => (⟨st.pos, r⟩, obs)
  | (st, _), .readPose => (st, some st)

/-- Run a schedule from an initial pose. -/
def execSched (init : Pose) (sched : List Seg) : Pose × Option Pose :=
  sched.foldl (fun acc seg => seg.foldl execOp acc) (init, none)

/-- The `on_message` handler's single synchronous segment for a
`camera_update` writing pose `(p, r)`: the `renderer.update` call, spelled
as separate position and rotation writes (the worst case allowed inside
one synchronous call). -/
def cameraUpdateTask (p r : Nat) : List Seg :=
  [[.writePos p, .writeRot r]]

/-- The render call of an in-flight pull: one synchronous segment reading
the whole pose. -/
def pullRenderTask : List Seg :=
  [[.readPose]]

/-! ### The signaling surface as an event system (for the registry
invariant)

Each externally triggered operation of src/main.py, projected to its
effect on the `sessions` dict and on object identities.  ICE ingestion and
control-message handling never touch the registry or create renderer or
peer-connection objects; a `KeyError` escaping a handler leaves the state
as it was. -/

/-- One externally triggered operation. -/
inductive Event where
  /-- `POST /offer` for the given session id. -/
  | offer (sid : String)
  /-- `POST /ice-candidate` for the given session id and line. -/
  | ice (sid : String) (candidate : List Char)
  /-- A data-channel `camera_update` (registry-irrelevant). -/
  | control (sid : String)
  /-- A connection-state change on the peer connection registered for
  `sid`, with the new state string. -/
  | connState (sid : String) (s : String)

/-- Effect of one event on the server state. -/
def stepEvent (st : ServerState) : Event → ServerState
  | .offer sid => (create_offer st sid).1
  | .ice sid candidate =>
    match add_ice_candidate st sid candidate with
    | .ok _ => st
    | .error _ => st
  | .control _ => st
  | .connState sid s =>
    match on_connectionstatechange st sid s with
    | .ok (st', _) => st'
    | .error _ => st

/-- The state at process start: empty `sessions` dict, no objects. -/
def initState : ServerState := ⟨[], 0⟩

/-- The state after a sequence of events from process start. -/
def run (events : List Event) : ServerState :=
  events.foldl stepEvent initState

/-- Two sessions share no renderer or peer-connection object. -/
def HandlesDisjoint (s t : Session) : Prop :=
  s.renderer ≠ t.renderer ∧ s.pc ≠ t.pc ∧
  s.renderer ≠ t.pc ∧ s.pc ≠ t.renderer

/-- The registry invariant: session ids are unique keys, every handle was
allocated below the fresh-name supply with a session's own renderer and pc
distinct, and distinct registered sessions share no handles. -/
def RegistryInv (st : ServerState) : Prop :=
  (st.sessions.map Prod.fst).Nodup ∧
  (∀ p ∈ st.sessions, p.2.renderer < st.nextHandle ∧
    p.2.pc < st.nextHandle ∧ p.2.renderer ≠ p.2.pc) ∧
  (∀ p ∈ st.sessions, ∀ q ∈ st.sessions, p.2 ≠ q.2 →
    HandlesDisjoint p.2 q.2)

/-! ### Dictionary lemmas -/

theorem dictGet_dictInsert (k sid : String) (v : Session)
    (l : List (String × Session)) :
    dictGet k (dictInsert sid v l) =
      if k = sid then some v else dictGet k l := by
  induction l with
  | nil => simp [dictInsert, dictGet]
  | cons hd tl ih =>
    obtain ⟨k', v'⟩ := hd
    by_cases h1 : sid = k'
    · subst h1
      by_cases h2 : k = sid <;> simp [dictInsert, dictGet, h2]
    · simp only [dictInsert, if_neg h1, dictGet, ih]
      by_cases h2 : k = k' <;> by_cases h3 : k = sid <;> simp_all

theorem dictGet_dictErase_self (k : String) (l : List (String × Session)) :
    dictGet k (dictErase k l) = none := by
  induction l with
  | nil => rfl
  | cons hd tl ih =>
    obtain ⟨k', v'⟩ := hd
    by_cases h : k' = k
    · simpa [dictErase, List.filter_cons, h] using ih
    · simpa [dictErase, List.filter_cons, h, dictGet, Ne.symm h] using ih

theorem mem_dictInsert {p : String × Session} {k : String} {v : Session}
    {l : List (String × Session)} (h : p ∈ dictInsert k v l) :
    p = (k, v) ∨ p ∈ l := by
  induction l with
  | nil => simpa [dictInsert] using h
  | cons hd tl ih =>
    obtain ⟨k', v'⟩ := hd
    by_cases h1 : k = k'
    · simp only [dictInsert, if_pos h1] at h
      rcases List.mem_cons.mp h with h2 | h2
      · exact Or.inl h2
      · exact Or.inr (List.mem_cons.mpr (Or.inr h2))
    · simp only [dictInsert, if_neg h1] at h
      rcases List.mem_cons.mp h with h2 | h2
      · exact Or.inr (List.mem_cons.mpr (Or.inl h2))
      · rcases ih h2 with h3 | h3
        · exact Or.inl h3
        · exact Or.inr (List.mem_cons.mpr (Or.inr h3))

theorem keys_dictInsert (k : String) (v : Session)
    (l : List (String × Session)) :
    (dictInsert k v l).map Prod.fst =
      if k ∈ l.map Prod.fst then l.map Prod.fst
      else l.map Prod.fst ++ [k] := by
  induction l with
  | nil => simp [dictInsert]
  | cons hd tl ih =>
    obtain ⟨k', v'⟩ := hd
    by_cases h1 : k = k'
    · subst h1
      simp [dictInsert]
    · simp [dictInsert, if_neg h1, ih, h1]
      by_cases h2 : k ∈ tl.map Prod.fst <;> simp [h2, h1]

theorem nodupKeys_dictInsert (k : String) (v : Session)
    {l : List (String × Session)} (h : (l.map Prod.fst).Nodup) :
    ((dictInsert k v l).map Prod.fst).Nodup := by
  rw [keys_dictInsert]
  by_cases h1 : k ∈ l.map Prod.fst
  · simpa [h1] using h
  · simp only [if_neg h1]
    exact List.nodup_append.mpr
      ⟨h, List.nodup_singleton k, by
        intro a ha hak
        exact h1 (by simpa [List.mem_singleton.mp hak] using ha)⟩

theorem mem_dictErase {p : String × Session} {k : String}
    {l : List (String × Session)} (h : p ∈ dictErase k l) : p ∈ l :=
  (List.mem_filter.mp h).1

theorem nodupKeys_dictErase (k : String)
    {l : List (String × Session)} (h : (l.map Prod.fst).Nodup) :
    ((dictErase k l).map Prod.fst).Nodup :=
  ((List.filter_sublist l).map Prod.fst).nodup h

/-! ### Parser lemmas -/

theorem matchLit_append (lit rest : List Char) :
    matchLit lit (lit ++ rest) = some rest := by
  induction lit with
  | nil => rfl
  | cons c cs ih => simp [matchLit, ih]

theorem takeWhile_dropWhile_exact (p : Char → Bool) (xs rest : List Char)
    (hall : ∀ c ∈ xs, p c = true)
    (hrest : ∀ c ∈ rest.head?, p c = false) :
    (xs ++ rest).takeWhile p = xs ∧ (xs ++ rest).dropWhile p = rest := by
  induction xs with
  | nil =>
    cases rest with
    | nil => simp
    | cons r rs =>
      have hr := hrest r (by simp)
      simp [List.takeWhile_cons, List.dropWhile_cons, hr]
  | cons c cs ih =>
    have hc := hall c (by simp)
    have ih' := ih fun d hd => hall d (by simp [hd])
    simp [List.takeWhile_cons, List.dropWhile_cons, hc, ih'.1, ih'.2]

theorem munch1_exact (p : Char → Bool) (xs rest : List Char)
    (hne : xs ≠ []) (hall : ∀ c ∈ xs, p c = true)
    (hrest : ∀ c ∈ rest.head?, p c = false) :
    munch1 p (xs ++ rest) = some (xs, rest) := by
  cases xs with
  | nil => exact absurd rfl hne
  | cons c cs =>
    have hc := hall c (by simp)
    have h := takeWhile_dropWhile_exact p cs rest
      (fun d hd => hall d (by simp [hd])) hrest
    simp [munch1, hc, h.1, h.2]

theorem isWordC_of_alphanum {c : Char} (h : c.isAlphanum = true) :
    isWordC c = true := by
  simp [isWordC, h]

theorem head?_cons_false {p : Char → Bool} {c : Char} (hc : p c = false)
    (l : List Char) : ∀ x ∈ (c :: l).head?, p x = false := by
  intro x hx
  rw [List.head?_cons, Option.mem_def, Option.some.injEq] at hx
  exact hx ▸ hc

theorem matchLit_space (l : List Char) :
    matchLit [' '] (' ' :: l) = some l := rfl

theorem matchLit_candidate (l : List Char) :
    matchLit "candidate:".data
      ('c' :: 'a' :: 'n' :: 'd' :: 'i' :: 'd' :: 'a' :: 't' :: 'e' :: ':' :: l) =
      some l := rfl

theorem matchLit_typ (l : List Char) :
    matchLit " typ ".data (' ' :: 't' :: 'y' :: 'p' :: ' ' :: l) = some l := rfl

theorem munch1_exact_cons (p : Char → Bool) (xs : List Char) (c : Char)
    (l : List Char) (hne : xs ≠ []) (hall : ∀ x ∈ xs, p x = true)
    (hc : p c = false) :
    munch1 p (xs ++ c :: l) = some (xs, c :: l) :=
  munch1_exact p xs (c :: l) hne hall (head?_cons_false hc l)

/-! ### Claim theorems -/

/-- Claim C1 (code bug): the retry loop of `FrameProducer.recv` is NOT
bounded by attempt count for all renderer behaviours.  When `render()`
returns `None` (or an empty buffer) on every call, the `if data is not None
and len(data) > 0` guard skips both the encode stage and the `except`
branch, so `failed_attempts` is never incremented and the `while True` loop
spins forever: for every fuel the loop is still `running`, with the failure
counter still `0`.  By contrast, when every call raises, the loop does stop
after exactly `max_failed_attempts = 10` iterations — fuel 10 already
yields `exhausted`, and with the tenth iteration removed it is still
`running`. -/
theorem recv_loop_unbounded_on_empty_render :
    (∀ fuel i, recvLoop (fun _ => .noData) 10 fuel i 0 = .running) ∧
    recvLoop (fun _ => .raiseExc) 10 10 0 0 = .exhausted ∧
    recvLoop (fun _ => .raiseExc) 10 9 0 0 = .running := by
  refine ⟨?_, by decide, by decide⟩
  intro fuel
  induction fuel with
  | zero => intro i; rfl
  | succ n ih => intro i; simpa [recvLoop] using ih (i + 1)

/-- Claim C3 (code bug): when the failure counter reaches
`max_failed_attempts`, `recv` does not return a typed "no frame" outcome —
after the `break`, the trailing `frame.pts = pts` statement executes with
`frame` never bound to a frame, so `recv` raises
(`UnboundLocalError`/`AttributeError`), modelled as `crashed`.  The
registry-level Session is indeed untouched by this, and a later pull whose
renderer works returns a frame, as the second conjunct shows. -/
theorem recv_exhaustion_crashes :
    recv (fun _ => .raiseExc) 0 10 = .crashed ∧
    recv (fun _ => .frame 7) 1 1 = .frame 7 1 := by
  decide

/-- Claim C2 counterexample: `POST /offer` with a `session_id` that is
already registered is NOT rejected and does NOT leave the registry
unchanged.  Starting from a registry holding session `"a"` (handles 1, 0)
and fresh-name supply 2, `create_offer` for the same id `"a"` returns a
freshly built session with new handles and replaces the registry entry:
the old session ⟨"a", 1, 0⟩ is gone from the mapping. -/
theorem create_offer_duplicate_not_rejected :
    (create_offer ⟨[("a", ⟨"a", 1, 0⟩)], 2⟩ "a").2 = ⟨"a", 3, 2⟩ ∧
    dictGet "a" (create_offer ⟨[("a", ⟨"a", 1, 0⟩)], 2⟩ "a").1.sessions =
      some ⟨"a", 3, 2⟩ ∧
    (create_offer ⟨[("a", ⟨"a", 1, 0⟩)], 2⟩ "a").1.sessions ≠
      [("a", ⟨"a", 1, 0⟩)] := by
  decide

/-- Claim C2 as amended: `create_offer` never rejects; for every state and
session id it constructs a session from two fresh handles (pc first, then
renderer) and stores it with Python-dict assignment semantics, replacing
any previous entry for that id and leaving every other id's entry
untouched. -/
theorem create_offer_overwrite_semantics (st : ServerState)
    (sid k : String) :
    (create_offer st sid).2 = ⟨sid, st.nextHandle + 1, st.nextHandle⟩ ∧
    dictGet k (create_offer st sid).1.sessions =
      (if k = sid then some (create_offer st sid).2
       else dictGet k st.sessions) := by
  refine ⟨rfl, ?_⟩
  simp [create_offer, create_session, dictGet_dictInsert]

/-- Claim C5 counterexample: `POST /ice-candidate` for a session id absent
from the registry does not produce a NotFound request-level error — the
subscription `sessions[session_id]` on line 141 raises an uncontained
`KeyError` (which the HTTP framework surfaces as a generic server error). -/
theorem ice_unknown_session_raises_keyerror :
    add_ice_candidate ⟨[], 0⟩ "a"
      "candidate:1 1 udp 2130706431 192.168.0.2 54321 typ host".data =
      .error .keyError := by
  rfl

/-- Claim C5 as amended: for every state, whenever the session id is not in
the registry — including after a failed-state teardown removed it — the
handler raises `KeyError` from the dict lookup before reaching any other
code; the candidate is not parsed or forwarded and the registry is not
touched (the handler never writes it). -/
theorem add_ice_candidate_unknown_session (st : ServerState)
    (sid : String) (candidate : List Char)
    (h : dictGet sid st.sessions = none) :
    add_ice_candidate st sid candidate = .error .keyError := by
  simp [add_ice_candidate, h]

/-- Witness for `add_ice_candidate_unknown_session`: the empty registry at
process start, session id `"z"`, an arbitrary candidate line. -/
theorem add_ice_candidate_unknown_session_witness :
    add_ice_candidate ⟨[], 5⟩ "z" "candidate:junk".data =
      .error .keyError :=
  add_ice_candidate_unknown_session ⟨[], 5⟩ "z" "candidate:junk".data rfl

/-- Claim C4 counterexample: after the `"failed"` connection-state handler
runs for session `"a"` — closing the pc and deleting the registry entry —
a `FrameProducer` pull still produces a frame.  `recv` reads only the
`self.session` reference captured at construction (src/main.py line 116)
and never consults the `sessions` dict or the connection state, so its
outcome is unaffected by the removal: with a renderer that renders, the
pull after teardown returns a stamped frame instead of stopping. -/
theorem pull_after_failed_teardown_still_produces :
    on_connectionstatechange ⟨[("a", ⟨"a", 1, 0⟩)], 2⟩ "a" "failed" =
      .ok (⟨[], 2⟩, true) ∧
    recv (fun _ => .frame 7) 3 1 = .frame 7 3 :=
  ⟨rfl, rfl⟩

/-- Claim C4 as amended: entering the `"failed"` state with the session
still registered closes the peer connection and removes the session from
the registry (the handler runs to completion on the single event-loop
thread, so the removal is complete before any later pull runs); but
`FrameProducer.recv` does not observe the removal — its behaviour is a
function of the renderer/codec oracle alone, so a pull invoked afterwards
still renders and returns a frame.  Frames stop flowing only because the
closed transport stops scheduling pulls. -/
theorem failed_teardown_removes_session (st : ServerState) (sid : String)
    (s : Session) (h : dictGet sid st.sessions = some s) :
    on_connectionstatechange st sid "failed" =
      .ok (⟨dictErase sid st.sessions, st.nextHandle⟩, true) ∧
    dictGet sid (dictErase sid st.sessions) = none ∧
    ∀ O : RendererOracle, ∀ pts fuel f,
      (recvLoop O 10 fuel 0 0 = .gotFrame f → recv O pts fuel = .frame f pts) := by
  refine ⟨by simp [on_connectionstatechange, h], dictGet_dictErase_self sid _, ?_⟩
  intro O pts fuel f hf
  simp [recv, hf]

/-- Witness for `failed_teardown_removes_session`: a one-session registry,
the always-rendering oracle, one unit of fuel. -/
theorem failed_teardown_removes_session_witness :
    on_connectionstatechange ⟨[("b", ⟨"b", 1, 0⟩)], 2⟩ "b" "failed" =
      .ok (⟨dictErase "b" [("b", ⟨"b", 1, 0⟩)], 2⟩, true) ∧
    dictGet "b" (dictErase "b" [("b", ⟨"b", 1, 0⟩)]) = none ∧
    ∀ O : RendererOracle, ∀ pts fuel f,
      (recvLoop O 10 fuel 0 0 = .gotFrame f → recv O pts fuel = .frame f pts) :=
  failed_teardown_removes_session ⟨[("b", ⟨"b", 1, 0⟩)], 2⟩ "b" ⟨"b", 1, 0⟩ rfl

/-- Claim C6 counterexample: the candidate parse is NOT `ParseError` on
every line outside the grammar.  The pattern is applied with `re.match`,
which anchors only at the start, so the line
`"candidate:1 2 udp 30 1.2.3.4 40 typ host junk"` — which is outside the
§4.1 grammar because of the trailing `" junk"`, as `specCandidateGrammar`
confirms — is accepted by the code with the trailing content silently
ignored, instead of being dropped as a parse failure. -/
theorem parseCandidate_accepts_nongrammar_line :
    specCandidateGrammar
      "candidate:1 2 udp 30 1.2.3.4 40 typ host junk".data = none ∧
    parseCandidate "candidate:1 2 udp 30 1.2.3.4 40 typ host junk".data =
      some ⟨"1".data, 2, "udp".data, 30, "1.2.3.4".data, 40, "host".data⟩ :=
  ⟨rfl, rfl⟩

set_option maxHeartbeats 2000000 in
/-- Claim C6 as amended: the parse is total (it returns a value or `none`,
never an exception, by construction) and matches the pattern as a PREFIX
of the line (`re.match`): for every line made of a grammar-valid part —
decimal foundation/component/priority/port, alphanumeric protocol/type,
non-whitespace ip — followed by any suffix that does not begin with a word
character, every field is extracted positionally and exactly, with the
integer fields read in decimal; the suffix is ignored.  With an empty
suffix this is exactly the spec's round-trip on grammar-valid lines. -/
theorem parseCandidate_field_extraction
    (fnd comp proto prio ip port ty rest : List Char)
    (h1 : fnd ≠ []) (h2 : ∀ c ∈ fnd, isDigitC c = true)
    (h3 : comp ≠ []) (h4 : ∀ c ∈ comp, isDigitC c = true)
    (h5 : proto ≠ []) (h6 : ∀ c ∈ proto, c.isAlphanum = true)
    (h7 : prio ≠ []) (h8 : ∀ c ∈ prio, isDigitC c = true)
    (h9 : ip ≠ []) (h10 : ∀ c ∈ ip, isNonSpaceC c = true)
    (h11 : port ≠ []) (h12 : ∀ c ∈ port, isDigitC c = true)
    (h13 : ty ≠ []) (h14 : ∀ c ∈ ty, c.isAlphanum = true)
    (h15 : ∀ c ∈ rest.head?, isWordC c = false) :
    parseCandidate ("candidate:".data ++ fnd ++ ' ' :: comp ++ ' ' :: proto
        ++ ' ' :: prio ++ ' ' :: ip ++ ' ' :: port
        ++ ' ' :: 't' :: 'y' :: 'p' :: ' ' :: ty ++ rest) =
      some ⟨fnd, decNat comp, proto, decNat prio, ip, decNat port, ty⟩ := by
  have h6' : ∀ c ∈ proto, isWordC c = true :=
    fun c hc => isWordC_of_alphanum (h6 c hc)
  have h14' : ∀ c ∈ ty, isWordC c = true :=
    fun c hc => isWordC_of_alphanum (h14 c hc)
  simp only [parseCandidate, List.append_assoc, List.cons_append,
    List.nil_append]
  rw [matchLit_candidate]
  simp only [Option.some_bind]
  rw [munch1_exact_cons isDigitC fnd ' ' _ h1 h2 (by decide)]
  simp only [Option.some_bind]
  rw [matchLit_space]
  simp only [Option.some_bind]
  rw [munch1_exact_cons isDigitC comp ' ' _ h3 h4 (by decide)]
  simp only [Option.some_bind]
  rw [matchLit_space]
  simp only [Option.some_bind]
  rw [munch1_exact_cons isWordC proto ' ' _ h5 h6' (by decide)]
  simp only [Option.some_bind]
  rw [matchLit_space]
  simp only [Option.some_bind]
  rw [munch1_exact_cons isDigitC prio ' ' _ h7 h8 (by decide)]
  simp only [Option.some_bind]
  rw [matchLit_space]
  simp only [Option.some_bind]
  rw [munch1_exact_cons isNonSpaceC ip ' ' _ h9 h10 (by decide)]
  simp only [Option.some_bind]
  rw [matchLit_space]
  simp only [Option.some_bind]
  rw [munch1_exact_cons isDigitC port ' ' _ h11 h12 (by decide)]
  simp only [Option.some_bind]
  rw [matchLit_typ]
  simp only [Option.some_bind]
  rw [munch1_exact isWordC ty rest h13 h14' h15]
  simp only [Option.some_bind]

/-- Witness for `parseCandidate_field_extraction`: a fully grammar-valid
host candidate line with an empty suffix round-trips every field. -/
theorem parseCandidate_field_extraction_witness :
    parseCandidate ("candidate:".data ++ "4234997325".data
        ++ ' ' :: "1".data ++ ' ' :: "udp".data ++ ' ' :: "2043278322".data
        ++ ' ' :: "192.168.0.56".data ++ ' ' :: "44323".data
        ++ ' ' :: 't' :: 'y' :: 'p' :: ' ' :: "host".data ++ []) =
      some ⟨"4234997325".data, 1, "udp".data, 2043278322,
            "192.168.0.56".data, 44323, "host".data⟩ :=
  parseCandidate_field_extraction "4234997325".data "1".data "udp".data
    "2043278322".data "192.168.0.56".data "44323".data "host".data []
    (by decide) (by decide) (by decide) (by decide) (by decide) (by decide)
    (by decide) (by decide) (by decide) (by decide) (by decide) (by decide)
    (by decide) (by decide) (by simp)

theorem degToRad_ninety : degToRad 90 = Real.pi / 2 := by
  unfold degToRad; ring

theorem degToRad_zero : degToRad 0 = 0 := by
  unfold degToRad; ring

/-- Claim C7 (confirmed): handling `camera_update` maps the Euler-angle
triple through `Rotation.from_euler("xyz", ..., degrees=True)` and leaves
the position untouched; on the golden vectors, rotation `[90, 0, 0]`
degrees yields exactly the matrix of a 90° rotation about the X axis, and
`[0, 90, 0]` / `[0, 0, 90]` yield the corresponding single-axis Y and Z
matrices.  Angles are exact reals, so "within floating-point tolerance"
holds as exact equality. -/
theorem camera_update_golden_rotations (p : Fin 3 → ℝ) :
    (on_message_camera_update p 90 0 0).1 = p ∧
    (on_message_camera_update p 90 0 0).2 = !![1, 0, 0; 0, 0, -1; 0, 1, 0] ∧
    (on_message_camera_update p 0 90 0).2 = !![0, 0, 1; 0, 1, 0; -1, 0, 0] ∧
    (on_message_camera_update p 0 0 90).2 = !![0, -1, 0; 1, 0, 0; 0, 0, 1] := by
  refine ⟨rfl, ?_, ?_, ?_⟩ <;>
    simp [on_message_camera_update, fromEulerXYZDeg, degToRad_ninety,
      degToRad_zero, Rx, Ry, Rz, Real.cos_pi_div_two, Real.sin_pi_div_two,
      Matrix.mul_fin_three]

/-- Claim C8 (confirmed): under the event-loop scheduling model — context
switches only at segment (await) boundaries, and both the `camera_update`
handler body and the render call are single synchronous segments — every
schedule interleaving a `camera_update` writing pose `(p1, r1)` with an
in-flight pull's render read makes the read observe either the entire old
pose or the entire new pose, never a mixture, even though the update is
modelled pessimistically as two separate field writes. -/
theorem camera_update_atomic_wrt_pull (p0 r0 p1 r1 : Nat)
    (sched : List Seg)
    (h : sched ∈ merges (cameraUpdateTask p1 r1) pullRenderTask) :
    (execSched ⟨p0, r0⟩ sched).2 = some ⟨p0, r0⟩ ∨
    (execSched ⟨p0, r0⟩ sched).2 = some ⟨p1, r1⟩ := by
  simp only [merges, cameraUpdateTask, pullRenderTask, List.map_cons,
    List.map_nil, List.cons_append, List.nil_append, List.mem_cons,
    List.mem_singleton, List.not_mem_nil, or_false] at h
  rcases h with h | h <;> subst h <;>
    simp [execSched, execOp]

/-- Witness for `camera_update_atomic_wrt_pull`: the update-before-read
schedule from pose `(0, 1)` to `(2, 3)`. -/
theorem camera_update_atomic_wrt_pull_witness :
    (execSched ⟨0, 1⟩ [[.writePos 2, .writeRot 3], [.readPose]]).2 =
      some ⟨0, 1⟩ ∨
    (execSched ⟨0, 1⟩ [[.writePos 2, .writeRot 3], [.readPose]]).2 =
      some ⟨2, 3⟩ :=
  camera_update_atomic_wrt_pull 0 1 2 3 _
    (by simp [merges, cameraUpdateTask, pullRenderTask])

theorem registryInv_stepEvent (st : ServerState) (e : Event)
    (h : RegistryInv st) : RegistryInv (stepEvent st e) := by
  obtain ⟨hkeys, hbound, hpair⟩ := h
  cases e with
  | control sid => exact ⟨hkeys, hbound, hpair⟩
  | ice sid cand =>
    cases hx : add_ice_candidate st sid cand <;>
      simpa [stepEvent, hx] using ⟨hkeys, hbound, hpair⟩
  | connState sid s =>
    by_cases hs : s = "failed"
    · subst hs
      cases hg : dictGet sid st.sessions with
      | none =>
        simpa [stepEvent, on_connectionstatechange, hg] using
          ⟨hkeys, hbound, hpair⟩
      | some v =>
        simp only [stepEvent, on_connectionstatechange, if_pos rfl, hg]
        refine ⟨nodupKeys_dictErase sid hkeys, ?_, ?_⟩
        · intro p hp
          exact hbound p (mem_dictErase hp)
        · intro p hp q hq hne
          exact hpair p (mem_dictErase hp) q (mem_dictErase hq) hne
    · simpa [stepEvent, on_connectionstatechange, hs] using
        ⟨hkeys, hbound, hpair⟩
  | offer sid =>
    simp only [stepEvent, create_offer, create_session]
    refine ⟨nodupKeys_dictInsert sid _ hkeys, ?_, ?_⟩
    · intro p hp
      rcases mem_dictInsert hp with hp1 | hp1
      · subst hp1
        refine ⟨?_, ?_, ?_⟩ <;> simp <;> try omega
      · obtain ⟨b1, b2, b3⟩ := hbound p hp1
        refine ⟨?_, ?_, b3⟩ <;> simp <;> omega
    · intro p hp q hq hne
      rcases mem_dictInsert hp with hp1 | hp1 <;>
        rcases mem_dictInsert hq with hq1 | hq1
      · subst hp1; subst hq1; exact absurd rfl hne
      · subst hp1
        obtain ⟨b1, b2, -⟩ := hbound q hq1
        refine ⟨?_, ?_, ?_, ?_⟩ <;> simp <;> omega
      · subst hq1
        obtain ⟨b1, b2, -⟩ := hbound p hp1
        refine ⟨?_, ?_, ?_, ?_⟩ <;> simp <;> omega
      · exact hpair p hp1 q hq1 hne

/-- Claim C9 (confirmed): at every state reachable from process start by
any sequence of offers, ICE ingestions, control messages and
connection-state changes, the registry maps each session identifier to at
most one Session (its key list has no duplicates), and no two distinct
registered Sessions share a renderer or peer-connection handle — every
offer builds its Session from two freshly allocated handles, and every
operation preserves the invariant. -/
theorem registry_unique_ids_and_unshared_handles (events : List Event) :
    RegistryInv (run events) := by
  suffices h : ∀ st, RegistryInv st → RegistryInv (events.foldl stepEvent st) by
    exact h initState ⟨by simp [initState], by simp [initState],
      by simp [initState]⟩
  induction events with
  | nil => exact fun st hst => hst
  | cons e es ih =>
    exact fun st hst => ih _ (registryInv_stepEvent st e hst)

theorem decodeLoop_eq_some_iff (C : CodecOracle) (l : List Nat) (f : Nat) :
    decodeLoop C l = some f ↔
      ∃ pre p suf rest, l = pre ++ p :: suf ∧
        (∀ q ∈ pre, C.decode q = .ok []) ∧
        C.decode p = .ok (f :: rest) := by
  induction l with
  | nil =>
    constructor
    · intro h
      exact absurd h (by simp [decodeLoop])
    · rintro ⟨pre, p, suf, rest, hl, -, -⟩
      cases pre <;> simp_all
  | cons a as ih =>
    cases hd : C.decode a with
    | error e =>
      simp only [decodeLoop, hd]
      constructor
      · intro h
        simp at h
      · rintro ⟨pre, p, suf, rest, hl, hpre, hp⟩
        cases pre with
        | nil =>
          simp only [List.nil_append, List.cons.injEq] at hl
          rw [hl.1] at hd
          rw [hd] at hp
          simp at hp
        | cons b bs =>
          simp only [List.cons_append, List.cons.injEq] at hl
          have hb := hpre b (by simp)
          rw [← hl.1] at hb
          rw [hd] at hb
          simp at hb
    | ok fr =>
      cases fr with
      | nil =>
        simp only [decodeLoop, hd]
        rw [ih]
        constructor
        · rintro ⟨pre, p, suf, rest, hl, hpre, hp⟩
          refine ⟨a :: pre, p, suf, rest, by simp [hl], ?_, hp⟩
          intro q hq
          rcases List.mem_cons.mp hq with h1 | h1
          · exact h1 ▸ hd
          · exact hpre q h1
        · rintro ⟨pre, p, suf, rest, hl, hpre, hp⟩
          cases pre with
          | nil =>
            simp only [List.nil_append, List.cons.injEq] at hl
            rw [hl.1] at hd
            rw [hd] at hp
            simp at hp
          | cons b bs =>
            simp only [List.cons_append, List.cons.injEq] at hl
            exact ⟨bs, p, suf, rest, hl.2,
              fun q hq => hpre q (by simp [hq]), hp⟩
      | cons f' fs =>
        simp only [decodeLoop, hd]
        constructor
        · intro h
          simp only [Option.some.injEq] at h
          exact ⟨[], a, as, fs, by simp, by simp, h ▸ hd⟩
        · rintro ⟨pre, p, suf, rest, hl, hpre, hp⟩
          cases pre with
          | nil =>
            simp only [List.nil_append, List.cons.injEq] at hl
            rw [hl.1] at hd
            rw [hd] at hp
            simp only [Except.ok.injEq, List.cons.injEq] at hp
            simp [hp.1]
          | cons b bs =>
            simp only [List.cons_append, List.cons.injEq] at hl
            have hb := hpre b (by simp)
            rw [← hl.1] at hb
            rw [hd] at hb
            simp at hb

/-- Claim C10 (confirmed): `parse_frame` is total — it returns an
`Option`, mapping every parse/decode exception to `None` by construction —
and it returns `some f` exactly when the packets produced from the input
split as some prefix of packets each decoding to no frames, followed by a
packet whose decode yields `f` as its first frame; all later frames and
packets are discarded unexamined.  In every other case (parse exception,
decode exception, or no packet yielding a frame) it returns `None`. -/
theorem parse_frame_first_frame_or_none (C : CodecOracle)
    (data : List Nat) (f : Nat) :
    parse_frame C data = some f ↔
      ∃ packets pre p suf rest, C.parse data = .ok packets ∧
        packets = pre ++ p :: suf ∧
        (∀ q ∈ pre, C.decode q = .ok []) ∧
        C.decode p = .ok (f :: rest) := by
  unfold parse_frame
  cases hp : C.parse data with
  | error e => simp
  | ok packets => simp [decodeLoop_eq_some_iff]

end GV
